import Mathlib

/-!
Shallow embedding of src/rff.py: random Fourier feature maps (plain and
orthogonal), the bandwidth median heuristic, and the RFF pipeline.

Numbers are modelled over an arbitrary linear ordered field; the analytic
primitives the code takes from numpy (cos, sqrt, the constant pi) are
collected in an `Analytic` record so that every definition stays
executable and can be instantiated at rational numbers for concrete
evaluation.  The global random generator of numpy (seeded once at module
load by the line np.random.seed(0)) is modelled as an explicit state
record `RNG` holding one output stream and one cursor per kind of draw;
every sampler reads its stream at the cursor and advances it, which is
exactly the observable behaviour of the shared global generator.
Fallible numpy operations return `Except PyError`; the constructors of
`PyError` cover both the exception kinds Python actually raises here
(ValueError, TypeError, AttributeError) and the error taxonomy named by
the design document, so that statements about the latter can be written.
-/

namespace RFF

/-- Exception kinds: the ones the Python code can actually raise, plus the
kinds named by the design document (which the code never defines). -/
inductive PyError where
  | valueError
  | typeError
  | attributeError
  | insufficientDataError
  | notFittedError
  | dimensionMismatchError
  | orthogonalizationRankError
  | emptyDatasetError
deriving DecidableEq

/-- The analytic primitives used by the code: np.cos, np.sqrt, np.pi. -/
@[ext]
structure Analytic (α : Type) where
  cos : α → α
  sqrt : α → α
  pi : α

/-- A dense numpy 2-d array: a row count, a column count and an entry
function (reads outside the shape are never used by the modelled code). -/
@[ext]
structure Mat (α : Type) where
  rows : ℕ
  cols : ℕ
  entry : ℕ → ℕ → α

/-- A dense numpy 1-d array. -/
@[ext]
structure Vec (α : Type) where
  len : ℕ
  entry : ℕ → α

/-- The state of the global numpy generator: one stream of outputs per kind
of draw, plus the cursor of each stream.  `nats` feeds the index picks of
np.random.choice; `normals` are standard normal draws; `uniforms` are
standard uniform draws on [0,1); `chisqs` are chi-squared draws. -/
@[ext]
structure RNG (α : Type) where
  nats : ℕ → ℕ
  normals : ℕ → α
  uniforms : ℕ → α
  chisqs : ℕ → α
  cNat : ℕ
  cNormal : ℕ
  cUniform : ℕ
  cChisq : ℕ

variable {α : Type} [LinearOrderedField α]

/-- Transpose (numpy .T). -/
def transposeM (A : Mat α) : Mat α :=
  ⟨A.cols, A.rows, fun i j => A.entry j i⟩

/-- Matrix product (numpy @).  numpy raises ValueError when the inner
dimensions disagree. -/
def npMatmul (A B : Mat α) : Except PyError (Mat α) :=
  if A.cols = B.rows then
    .ok ⟨A.rows, B.cols, fun i j =>
      ((List.range A.cols).map (fun k => A.entry i k * B.entry k j)).sum⟩
  else .error .valueError

/-- Adding a 1-d array to a 2-d array broadcasts the vector across rows;
numpy raises ValueError when the trailing dimensions disagree. -/
def npBroadcastAdd (M : Mat α) (b : Vec α) : Except PyError (Mat α) :=
  if M.cols = b.len then
    .ok ⟨M.rows, M.cols, fun i j => M.entry i j + b.entry j⟩
  else .error .valueError

/-- Elementwise application of a scalar function (numpy ufunc). -/
def mapMat (f : α → α) (M : Mat α) : Mat α :=
  ⟨M.rows, M.cols, fun i j => f (M.entry i j)⟩

/-- np.diag of a vector. -/
def diagMat (v : Vec α) : Mat α :=
  ⟨v.len, v.len, fun i j => if i = j then v.entry i else 0⟩

/-- Row selection X[idx] by a list of row indices. -/
def selectRows (X : Mat α) (idx : List ℕ) : Mat α :=
  ⟨idx.length, X.cols, fun i j => X.entry (idx.getD i 0) j⟩

/-- Squared Euclidean distance between rows i and j. -/
def rowSqDist (X : Mat α) (i j : ℕ) : α :=
  ((List.range X.cols).map (fun k =>
    (X.entry i k - X.entry j k) * (X.entry i k - X.entry j k))).sum

/-- scipy pdist with metric sqeuclidean: the condensed list of pairwise
squared distances, pairs (i, j) with i < j in lexicographic order. -/
def sqPdist (X : Mat α) : List α :=
  (List.range X.rows).flatMap (fun i =>
    (List.range (X.rows - (i + 1))).map (fun d => rowSqDist X i (i + 1 + d)))

/-- np.median: sort, take the middle element (odd length) or the mean of
the two middle elements (even length). -/
def npMedian (l : List α) : α :=
  let s := l.insertionSort (· ≤ ·)
  if s.length = 0 then 0
  else if s.length % 2 = 1 then s.getD (s.length / 2) 0
  else (s.getD (s.length / 2 - 1) 0 + s.getD (s.length / 2) 0) / 2

/-- The index picks behind np.random.choice(n, size, replace=False):
`size` draws, each taken from the pool of still-unchosen elements at the
position given by the nat stream (mod the pool size), removing it. -/
def selectList (nats : ℕ → ℕ) : ℕ → List ℕ → ℕ → List ℕ
  | _, _, 0 => []
  | c, pool, size + 1 =>
    if pool.length = 0 then []
    else
      let k := nats c % pool.length
      pool.getD k 0 :: selectList nats (c + 1) (pool.eraseIdx k) size

/-- np.random.choice(n, size=size, replace=False): raises ValueError when
the requested sample is larger than the population. -/
def npChoice (rng : RNG α) (n size : ℕ) : Except PyError (List ℕ × RNG α) :=
  if size ≤ n then
    .ok (selectList rng.nats rng.cNat (List.range n) size,
         { rng with cNat := rng.cNat + size })
  else .error .valueError

/-- np.random.normal(0, scale, (m, n)). -/
def npNormalMat (rng : RNG α) (scale : α) (m n : ℕ) : Mat α × RNG α :=
  (⟨m, n, fun i j => scale * rng.normals (rng.cNormal + (i * n + j))⟩,
   { rng with cNormal := rng.cNormal + m * n })

/-- np.random.uniform(lo, hi, size=n). -/
def npUniformVec (rng : RNG α) (lo hi : α) (n : ℕ) : Vec α × RNG α :=
  (⟨n, fun i => lo + (hi - lo) * rng.uniforms (rng.cUniform + i)⟩,
   { rng with cUniform := rng.cUniform + n })

/-- np.random.chisquare(df, size=n); the stream holds the draws, the
degrees-of-freedom argument does not change the state evolution. -/
def npChisqVec (rng : RNG α) (_df n : ℕ) : Vec α × RNG α :=
  (⟨n, fun i => rng.chisqs (rng.cChisq + i)⟩,
   { rng with cChisq := rng.cChisq + n })

/-- Inner product of two column functions over the first `m` rows. -/
def dotCol (m : ℕ) (f g : ℕ → α) : α :=
  ((List.range m).map (fun i => f i * g i)).sum

/-- The first `j` orthonormalized columns of `A` (classical Gram-Schmidt),
modelling the column space computed by np.linalg.qr in reduced mode. -/
def gsCols (An : Analytic α) (A : Mat α) : ℕ → List (ℕ → α)
  | 0 => []
  | j + 1 =>
    let prev := gsCols An A j
    let a : ℕ → α := fun i => A.entry i j
    let u : ℕ → α := fun i =>
      a i - (prev.map (fun q => dotCol A.rows q a * q i)).sum
    let nrm := An.sqrt (dotCol A.rows u u)
    prev ++ [fun i => u i / nrm]

/-- np.linalg.qr in its default reduced mode: for an m-by-n input the
factor Q has shape m-by-min(m,n) and R has shape min(m,n)-by-n. -/
def npQR (An : Analytic α) (A : Mat α) : Mat α × Mat α :=
  let k := min A.rows A.cols
  let cols := gsCols An A k
  (⟨A.rows, k, fun i j => (cols.getD j (fun _ => 0)) i⟩,
   ⟨k, A.cols, fun i j => dotCol A.rows (cols.getD i (fun _ => 0)) (fun r => A.entry r j)⟩)

/-- The state of a feature-creator instance: the constructor arguments
n_features, new_dim and func, and the projection parameters w and b,
which are None until fit runs. -/
@[ext]
structure Creator (α : Type) where
  n_features : ℕ
  new_dim : ℕ
  w : Option (Mat α)
  b : Option (Vec α)
  func : α → α

/-- FeatureCreatorPlaceholder.__init__. -/
def mkCreator (n_features new_dim : ℕ) (func : α → α) : Creator α :=
  ⟨n_features, new_dim, none, none, func⟩

/-- FeatureCreatorPlaceholder.fit: returns self, touching nothing. -/
def placeholderFit (c : Creator α) (_X : Mat α) : Creator α := c

/-- FeatureCreatorPlaceholder.transform: returns the input unchanged. -/
def placeholderTransform (_c : Creator α) (X : Mat α) : Mat α := X

/-- The bandwidth computation shared by both fitted variants (line 31 and
line 44 of the source): the median of the pairwise squared Euclidean
distances over a 1000-row subsample drawn without replacement. -/
def bandwidth (X : Mat α) (rng : RNG α) : Except PyError (α × RNG α) := do
  let (idx, r1) ← npChoice rng X.rows 1000
  pure (npMedian (sqPdist (selectRows X idx)), r1)

/-- RandomFeatureCreator.fit. -/
def rffFit (An : Analytic α) (c : Creator α) (X : Mat α) (rng : RNG α) :
    Except PyError (Creator α × RNG α) := do
  let (sigma, r1) ← bandwidth X rng
  let scale := An.sqrt (1 / (2 * sigma))
  let (w, r2) := npNormalMat r1 scale c.n_features c.new_dim
  let (b, r3) := npUniformVec r2 (-An.pi) An.pi c.n_features
  pure ({ c with w := some w, b := some b }, r3)

/-- RandomFeatureCreator.transform: np.cos(X @ self.w.T + self.b).
When w is None, taking .T on it raises AttributeError; when w is set but
b is None, adding None to the product raises TypeError; dimension
disagreements surface as ValueError from the numpy operations. -/
def rffTransform (An : Analytic α) (c : Creator α) (X : Mat α) :
    Except PyError (Mat α) :=
  match c.w with
  | none => .error .attributeError
  | some w => do
    let M ← npMatmul X (transposeM w)
    match c.b with
    | none => .error .typeError
    | some b => do
      let A ← npBroadcastAdd M b
      pure (mapMat An.cos A)

/-- OrthogonalRandomFeatureCreator.fit. -/
def orthFit (An : Analytic α) (c : Creator α) (X : Mat α) (rng : RNG α) :
    Except PyError (Creator α × RNG α) := do
  let (sigma, r1) ← bandwidth X rng
  let scale := An.sqrt (1 / (2 * sigma))
  let (w, r2) := npNormalMat r1 scale c.n_features c.new_dim
  let Q := (npQR An w).1
  let (sv, r3) := npChisqVec r2 c.new_dim c.new_dim
  let S := diagMat ⟨c.new_dim, fun i => An.sqrt (sv.entry i)⟩
  let W ← npMatmul Q S
  let (b, r4) := npUniformVec r3 (-An.pi) An.pi c.n_features
  pure ({ c with w := some W, b := some b }, r4)

/-- The closed set of feature-creator variants. -/
inductive FCKind where
  | placeholder
  | randomFourier
  | orthogonalRandomFourier
deriving DecidableEq

/-- fit of each variant (the placeholder never fails and never draws). -/
def dispatchFit (k : FCKind) (An : Analytic α) (c : Creator α) (X : Mat α)
    (rng : RNG α) : Except PyError (Creator α × RNG α) :=
  match k with
  | .placeholder => .ok (placeholderFit c X, rng)
  | .randomFourier => rffFit An c X rng
  | .orthogonalRandomFourier => orthFit An c X rng

/-- transform of each variant; the orthogonal variant inherits
RandomFeatureCreator.transform unchanged. -/
def dispatchTransform (k : FCKind) (An : Analytic α) (c : Creator α)
    (X : Mat α) : Except PyError (Mat α) :=
  match k with
  | .placeholder => .ok (placeholderTransform c X)
  | .randomFourier => rffTransform An c X
  | .orthogonalRandomFourier => rffTransform An c X

/-- The transform formula exactly as the specification document words it:
Z = cos(X·Wᵀ + b) elementwise with b broadcast across rows, an
[n_samples × n_features] matrix (n_features = number of rows of W). -/
def specRFFTransform (An : Analytic α) (W : Mat α) (b : Vec α) (X : Mat α) :
    Mat α :=
  ⟨X.rows, W.rows, fun i j =>
    An.cos (((List.range X.cols).map (fun k => X.entry i k * W.entry j k)).sum
      + b.entry j)⟩

/-- The part of a fitted sklearn Pipeline that later predict calls read:
which stages were assembled and the state each stage learned at fit time.
PCA and the classifier are external collaborators; their fitted state is
modelled as the data they were fitted on. -/
@[ext]
structure FittedPipe (α : Type) where
  usedPCA : Bool
  pcaDim : ℕ
  pcaTrain : Mat α
  creator : Creator α
  cls : Mat α × Vec α

/-- RFFPipeline instance state: configuration plus the one feature-creator
and classifier objects built in __init__ and the fitted pipeline. -/
@[ext]
structure PState (α : Type) where
  n_features : ℕ
  new_dim : ℕ
  use_PCA : Bool
  fkind : FCKind
  feature_creator : Creator α
  classifier : Option (Mat α × Vec α)
  pipeline : Option (FittedPipe α)

/-- RFFPipeline.__init__. -/
def mkPipeline (n_features new_dim : ℕ) (use_PCA : Bool) (fkind : FCKind)
    (func : α → α) : PState α :=
  ⟨n_features, new_dim, use_PCA, fkind,
   mkCreator n_features new_dim func, none, none⟩

/-- RFFPipeline.fit.  `pca` is the external PCA collaborator: given the
target dimensionality and the matrix it was fitted on, it transforms a
matrix; fitting the classifier stores the pair (Z, y) it received. -/
def pipelineFit (An : Analytic α) (pca : ℕ → Mat α → Mat α → Mat α)
    (p : PState α) (X : Mat α) (y : Vec α) (rng : RNG α) :
    Except PyError (PState α × RNG α) :=
  let nd := if p.use_PCA then min X.cols p.new_dim else p.new_dim
  let Xr := if p.use_PCA then pca nd X X else X
  do
    let (fc, r1) ← dispatchFit p.fkind An p.feature_creator Xr rng
    let Z ← dispatchTransform p.fkind An fc Xr
    let p2 : PState α :=
      { p with
        new_dim := nd
        feature_creator := fc
        classifier := some (Z, y)
        pipeline := some ⟨p.use_PCA, nd, X, fc, (Z, y)⟩ }
    pure (p2, r1)

/-- RFFPipeline.predict: self.pipeline is None before fit, so calling
.predict on it raises AttributeError.  `clsPredict` is the external
predict of the external classifier, as a function of its fitted state. -/
def pipelinePredict (An : Analytic α) (pca : ℕ → Mat α → Mat α → Mat α)
    (clsPredict : Mat α × Vec α → Mat α → Vec α) (p : PState α) (X : Mat α) :
    Except PyError (Vec α) :=
  match p.pipeline with
  | none => .error .attributeError
  | some fp => do
    let Xr := if fp.usedPCA then pca fp.pcaDim fp.pcaTrain X else X
    let Z ← dispatchTransform p.fkind An fp.creator Xr
    pure (clsPredict fp.cls Z)

/-- RFFPipeline.predict_proba, analogously. -/
def pipelinePredictProba (An : Analytic α) (pca : ℕ → Mat α → Mat α → Mat α)
    (clsProba : Mat α × Vec α → Mat α → Mat α) (p : PState α) (X : Mat α) :
    Except PyError (Mat α) :=
  match p.pipeline with
  | none => .error .attributeError
  | some fp => do
    let Xr := if fp.usedPCA then pca fp.pcaDim fp.pcaTrain X else X
    let Z ← dispatchTransform p.fkind An fp.creator Xr
    pure (clsProba fp.cls Z)

/-- A fit immediately followed by a transform, as the pipeline performs on
the training data (used to compare configurations that differ in func). -/
def fitThenTransform (k : FCKind) (An : Analytic α) (c : Creator α)
    (Xfit X : Mat α) (rng : RNG α) : Except PyError (Mat α) := do
  let (c2, _) ← dispatchFit k An c Xfit rng
  dispatchTransform k An c2 X

/-! Closed forms of the quantities a successful fit stores, used to state
equation lemmas for the fit functions. -/

/-- The 1000 row indices np.random.choice draws during fit. -/
def fitIdx (rng : RNG α) (n : ℕ) : List ℕ :=
  selectList rng.nats rng.cNat (List.range n) 1000

/-- The bandwidth a successful fit computes. -/
def fitSigma (X : Mat α) (rng : RNG α) : α :=
  npMedian (sqPdist (selectRows X (fitIdx rng X.rows)))

/-- The raw Gaussian matrix w a successful fit draws. -/
def rawW (An : Analytic α) (c : Creator α) (X : Mat α) (rng : RNG α) : Mat α :=
  ⟨c.n_features, c.new_dim, fun i j =>
    An.sqrt (1 / (2 * fitSigma X rng)) *
      rng.normals (rng.cNormal + (i * c.new_dim + j))⟩

/-- The phase vector b a successful fit draws (its uniform draws use the
uniform cursor of the incoming state in both variants). -/
def fitB (An : Analytic α) (c : Creator α) (rng : RNG α) : Vec α :=
  ⟨c.n_features, fun i =>
    -An.pi + (An.pi - -An.pi) * rng.uniforms (rng.cUniform + i)⟩

/-- The diagonal scaling matrix S of the orthogonal variant. -/
def orthS (An : Analytic α) (c : Creator α) (rng : RNG α) : Mat α :=
  diagMat ⟨c.new_dim, fun i => An.sqrt (rng.chisqs (rng.cChisq + i))⟩

/-- The projection matrix Q·S the orthogonal variant stores. -/
def orthW (An : Analytic α) (c : Creator α) (X : Mat α) (rng : RNG α) : Mat α :=
  ⟨c.n_features, c.new_dim, fun i j =>
    ((List.range (min c.n_features c.new_dim)).map (fun k =>
      (npQR An (rawW An c X rng)).1.entry i k * (orthS An c rng).entry k j)).sum⟩

/-- The generator state after RandomFeatureCreator.fit. -/
def rngAfterRff (c : Creator α) (rng : RNG α) : RNG α :=
  { rng with
    cNat := rng.cNat + 1000
    cNormal := rng.cNormal + c.n_features * c.new_dim
    cUniform := rng.cUniform + c.n_features }

/-- The generator state after OrthogonalRandomFeatureCreator.fit. -/
def rngAfterOrth (c : Creator α) (rng : RNG α) : RNG α :=
  { rng with
    cNat := rng.cNat + 1000
    cNormal := rng.cNormal + c.n_features * c.new_dim
    cUniform := rng.cUniform + c.n_features
    cChisq := rng.cChisq + c.new_dim }

/-! Concrete rational instances used for witnesses and counterexamples. -/

/-- Analytic primitives instantiated over the rationals (the concrete
counterexamples below never rely on analytic identities of cos or sqrt,
only on which arguments they receive). -/
def AnQ : Analytic ℚ := ⟨fun x => x, fun x => x, 3⟩

/-- A generator state with all cursors at zero. -/
def rngQ : RNG ℚ :=
  ⟨fun n => n, fun n => (n : ℚ), fun n => (n : ℚ), fun n => (n : ℚ), 0, 0, 0, 0⟩

/-- The same streams after one prior global uniform draw. -/
def rngQ1 : RNG ℚ :=
  ⟨fun n => n, fun n => (n : ℚ), fun n => (n : ℚ), fun n => (n : ℚ), 0, 0, 1, 0⟩

/-- A generator state with all cursors at one. -/
def rngW1 : RNG ℚ :=
  ⟨fun n => n, fun n => (n : ℚ), fun n => (n : ℚ), fun n => (n : ℚ), 1, 1, 1, 1⟩

/-- Streams agreeing with rngW1 everywhere except at the already-consumed
position 0, cursors at one. -/
def rngW2 : RNG ℚ :=
  ⟨fun n => if n = 0 then 7 else n,
   fun n => if n = 0 then 7 else (n : ℚ),
   fun n => if n = 0 then 7 else (n : ℚ),
   fun n => if n = 0 then 7 else (n : ℚ), 1, 1, 1, 1⟩

/-- A 1000-row, 1-column all-zero data matrix. -/
def X1000 : Mat ℚ := ⟨1000, 1, fun _ _ => 0⟩

/-- A 500-row data matrix (too small to subsample 1000 rows). -/
def X500 : Mat ℚ := ⟨500, 1, fun _ _ => 0⟩

/-- A single-row, single-column matrix. -/
def Xs1 : Mat ℚ := ⟨1, 1, fun _ _ => 0⟩

/-- A single-row matrix with five columns. -/
def Xs5 : Mat ℚ := ⟨1, 5, fun _ _ => 0⟩

/-- A five-row, one-column matrix. -/
def Xp1 : Mat ℚ := ⟨5, 1, fun _ _ => 0⟩

/-- A five-row, two-column matrix. -/
def Xp2 : Mat ℚ := ⟨5, 2, fun _ _ => 0⟩

/-- A five-entry label vector. -/
def yp : Vec ℚ := ⟨5, fun _ => 0⟩

/-- A creator configured with n_features = 2, new_dim = 1. -/
def cr21 : Creator ℚ := mkCreator 2 1 (fun x => x)

/-- A creator configured with n_features = 1, new_dim = 2 (fewer features
than the target dimensionality). -/
def cr12 : Creator ℚ := mkCreator 1 2 (fun x => x)

/-- A stand-in for the external PCA collaborator in concrete runs. -/
def dummyPCA : ℕ → Mat ℚ → Mat ℚ → Mat ℚ :=
  fun d _ X => ⟨X.rows, d, fun _ _ => 0⟩

/-- A stand-in for the external classifier predict in concrete runs. -/
def dummyPredict : Mat ℚ × Vec ℚ → Mat ℚ → Vec ℚ :=
  fun _ Z => ⟨Z.rows, fun _ => 0⟩

/-- A stand-in for the external classifier predict_proba in concrete runs. -/
def dummyProba : Mat ℚ × Vec ℚ → Mat ℚ → Mat ℚ :=
  fun _ Z => ⟨Z.rows, 2, fun _ _ => 0⟩

/-- Projection reading the first stored phase entry out of a fit result. -/
def extractB0 (r : Except PyError (Creator ℚ × RNG ℚ)) : Option ℚ :=
  match r with
  | .ok (c, _) => c.b.map (fun v => v.entry 0)
  | .error _ => none

/-- Projection reading the effective target dimensionality of a pipeline
fit result. -/
def extractNewDim (r : Except PyError (PState ℚ × RNG ℚ)) : Option ℕ :=
  match r with
  | .ok (p, _) => some p.new_dim
  | .error _ => none

/-- The creator produced by fitting cr21 on X1000 from state rngQ. -/
def fitC : Creator ℚ :=
  match rffFit AnQ cr21 X1000 rngQ with
  | .ok (c, _) => c
  | .error _ => cr21

/-- The generator state left by fitting cr21 on X1000 from state rngQ. -/
def fitR : RNG ℚ :=
  match rffFit AnQ cr21 X1000 rngQ with
  | .ok (_, r) => r
  | .error _ => rngQ

/-- A freshly constructed pipeline with PCA enabled, the placeholder
feature creator, n_features = 3 and configured new_dim = 50. -/
def pipeP0 : PState ℚ := mkPipeline 3 50 true .placeholder (fun x => x)

/-- The pipeline state after fitting pipeP0 on the one-column dataset. -/
def pipeP1 : PState ℚ :=
  match pipelineFit AnQ dummyPCA pipeP0 Xp1 yp rngQ with
  | .ok (p, _) => p
  | .error _ => pipeP0

/-- The pipeline state after fitting pipeP0 on the two-column dataset. -/
def pipeP2 : PState ℚ :=
  match pipelineFit AnQ dummyPCA pipeP0 Xp2 yp rngQ with
  | .ok (p, _) => p
  | .error _ => pipeP0

/-- The generator state left by fitting pipeP0 on the two-column dataset. -/
def pipeR2 : RNG ℚ :=
  match pipelineFit AnQ dummyPCA pipeP0 Xp2 yp rngQ with
  | .ok (_, r) => r
  | .error _ => rngQ

end RFF

namespace RFF

variable {α : Type} [LinearOrderedField α]

/-! Basic list facts used by the sampling and median lemmas. -/

lemma getD_mem {β : Type} : ∀ (l : List β) (d : β) (k : ℕ), k < l.length → l.getD k d ∈ l
  | a :: t, _, 0, _ => List.mem_cons_self a t
  | a :: t, d, k + 1, h =>
    List.mem_cons_of_mem a (getD_mem t d k (by simpa using Nat.lt_of_succ_lt_succ h))

lemma getD_not_mem_eraseIdx : ∀ (l : List ℕ) (k : ℕ), k < l.length → l.Nodup →
    l.getD k 0 ∉ l.eraseIdx k
  | a :: t, 0, _, hnd => (List.nodup_cons.mp hnd).1
  | a :: t, k + 1, h, hnd => by
    have hlt : k < t.length := by simpa using Nat.lt_of_succ_lt_succ h
    have ht := getD_not_mem_eraseIdx t k hlt (List.nodup_cons.mp hnd).2
    have hmem : t.getD k 0 ∈ t := getD_mem t 0 k hlt
    have hne : t.getD k 0 ≠ a := fun he => (List.nodup_cons.mp hnd).1 (he ▸ hmem)
    show t.getD k 0 ∉ a :: t.eraseIdx k
    intro hmem2
    rcases List.mem_cons.mp hmem2 with he | hin
    · exact hne he
    · exact ht hin

lemma selectList_length (f : ℕ → ℕ) :
    ∀ (size c : ℕ) (pool : List ℕ),
      (selectList f c pool size).length = min size pool.length
  | 0, _, _ => by simp [selectList]
  | size + 1, c, pool => by
    by_cases hp : pool.length = 0
    · rw [selectList, if_pos hp]
      simp [hp]
    · have hk : f c % pool.length < pool.length :=
        Nat.mod_lt _ (Nat.pos_of_ne_zero hp)
      have hrec := selectList_length f size (c + 1) (pool.eraseIdx (f c % pool.length))
      rw [selectList, if_neg hp]
      rw [List.length_cons, hrec, List.length_eraseIdx]
      simp only [hk, if_true]
      omega

lemma selectList_subset (f : ℕ → ℕ) :
    ∀ (size c : ℕ) (pool : List ℕ) (x : ℕ), x ∈ selectList f c pool size → x ∈ pool
  | 0, _, _, _, h => by simp [selectList] at h
  | size + 1, c, pool, x, h => by
    by_cases hp : pool.length = 0
    · rw [selectList, if_pos hp] at h
      exact absurd h (List.not_mem_nil x)
    · rw [selectList, if_neg hp] at h
      rcases List.mem_cons.mp h with he | hin
      · exact he ▸ getD_mem pool 0 _ (Nat.mod_lt _ (Nat.pos_of_ne_zero hp))
      · exact (List.eraseIdx_sublist pool _).subset
          (selectList_subset f size (c + 1) _ x hin)

lemma selectList_nodup (f : ℕ → ℕ) :
    ∀ (size c : ℕ) (pool : List ℕ), pool.Nodup → (selectList f c pool size).Nodup
  | 0, _, _, _ => by simp [selectList]
  | size + 1, c, pool, hnd => by
    by_cases hp : pool.length = 0
    · rw [selectList, if_pos hp]
      exact List.nodup_nil
    · have hk : f c % pool.length < pool.length :=
        Nat.mod_lt _ (Nat.pos_of_ne_zero hp)
      have hrec := selectList_nodup f size (c + 1) _
        (hnd.sublist (List.eraseIdx_sublist pool (f c % pool.length)))
      have hni : pool.getD (f c % pool.length) 0 ∉
          selectList f (c + 1) (pool.eraseIdx (f c % pool.length)) size :=
        fun hmem => getD_not_mem_eraseIdx pool _ hk hnd
          (selectList_subset f size (c + 1) _ _ hmem)
      rw [selectList, if_neg hp]
      exact List.nodup_cons.mpr ⟨hni, hrec⟩

lemma selectList_congr (f g : ℕ → ℕ) :
    ∀ (size c : ℕ) (pool : List ℕ), (∀ m, c ≤ m → f m = g m) →
      selectList f c pool size = selectList g c pool size
  | 0, _, _, _ => by simp [selectList]
  | size + 1, c, pool, hfg => by
    by_cases hp : pool.length = 0
    · rw [selectList, selectList, if_pos hp, if_pos hp]
    · have hc : f c = g c := hfg c (le_refl c)
      have hrec := selectList_congr f g size (c + 1)
        (pool.eraseIdx (g c % pool.length))
        (fun m hm => hfg m (by omega))
      rw [selectList, selectList, if_neg hp, if_neg hp, hc]
      exact congrArg (List.cons _) hrec

/-! Facts about the median and the condensed distance list. -/

lemma getD_nonneg : ∀ (s : List α), (∀ x ∈ s, 0 ≤ x) → ∀ k, 0 ≤ s.getD k 0
  | [], _, _ => le_refl 0
  | a :: t, h, 0 => h a (List.mem_cons_self a t)
  | a :: t, h, k + 1 =>
    getD_nonneg t (fun x hx => h x (List.mem_cons_of_mem a hx)) k

lemma npMedian_all_eq (l : List α) (a : α) (hne : l ≠ []) (ha : ∀ x ∈ l, x = a) :
    npMedian l = a := by
  have hperm := List.perm_insertionSort (α := α) (· ≤ ·) l
  set s := l.insertionSort (· ≤ ·) with hs
  have hlen : s.length = l.length := hperm.length_eq
  have hmem : ∀ x ∈ s, x = a := fun x hx => ha x (hperm.mem_iff.mp hx)
  have hne2 : s.length ≠ 0 := by
    rw [hlen]
    exact fun h0 => hne (List.length_eq_zero.mp h0)
  have hlt : s.length / 2 < s.length :=
    Nat.div_lt_self (Nat.pos_of_ne_zero hne2) one_lt_two
  have hlt2 : s.length / 2 - 1 < s.length :=
    lt_of_le_of_lt (Nat.sub_le _ _) hlt
  show (if s.length = 0 then 0
    else if s.length % 2 = 1 then s.getD (s.length / 2) 0
    else (s.getD (s.length / 2 - 1) 0 + s.getD (s.length / 2) 0) / 2) = a
  rw [if_neg hne2]
  by_cases hodd : s.length % 2 = 1
  · rw [if_pos hodd]
    exact hmem _ (getD_mem s 0 _ hlt)
  · rw [if_neg hodd, hmem _ (getD_mem s 0 _ hlt2), hmem _ (getD_mem s 0 _ hlt)]
    exact add_self_div_two a

lemma npMedian_nonneg (l : List α) (h : ∀ x ∈ l, 0 ≤ x) : 0 ≤ npMedian l := by
  have hperm := List.perm_insertionSort (α := α) (· ≤ ·) l
  set s := l.insertionSort (· ≤ ·) with hs
  have hmem : ∀ x ∈ s, 0 ≤ x := fun x hx => h x (hperm.mem_iff.mp hx)
  show 0 ≤ (if s.length = 0 then 0
    else if s.length % 2 = 1 then s.getD (s.length / 2) 0
    else (s.getD (s.length / 2 - 1) 0 + s.getD (s.length / 2) 0) / 2)
  by_cases h0 : s.length = 0
  · rw [if_pos h0]
  · rw [if_neg h0]
    by_cases hodd : s.length % 2 = 1
    · rw [if_pos hodd]
      exact getD_nonneg s hmem _
    · rw [if_neg hodd]
      have h2 : (0 : α) ≤ 2 := by norm_num
      exact div_nonneg (add_nonneg (getD_nonneg s hmem _) (getD_nonneg s hmem _)) h2

lemma rowSqDist_nonneg (X : Mat α) (i j : ℕ) : 0 ≤ rowSqDist X i j := by
  apply List.sum_nonneg
  intro x hx
  simp only [rowSqDist, List.mem_map] at hx
  obtain ⟨k, _, rfl⟩ := hx
  exact mul_self_nonneg _

lemma mem_sqPdist (X : Mat α) (x : α) (hx : x ∈ sqPdist X) :
    ∃ i j, x = rowSqDist X i j := by
  simp only [sqPdist, List.mem_flatMap, List.mem_map, List.mem_range] at hx
  obtain ⟨i, _, d, _, rfl⟩ := hx
  exact ⟨i, i + 1 + d, rfl⟩

lemma sqPdist_ne_nil (X : Mat α) (h : 2 ≤ X.rows) : sqPdist X ≠ [] := by
  apply List.ne_nil_of_mem (a := rowSqDist X 0 1)
  simp only [sqPdist, List.mem_flatMap, List.mem_map, List.mem_range]
  exact ⟨0, by omega, 0, by omega, rfl⟩

end RFF

namespace RFF

variable {α : Type} [LinearOrderedField α]

/-! Unfolding helpers for the Except monad and equation lemmas giving the
closed form of each fit function. -/

lemma ok_bind {β γ : Type} (a : β) (f : β → Except PyError γ) :
    (Except.ok a : Except PyError β) >>= f = f a := rfl

lemma error_bind {β γ : Type} (e : PyError) (f : β → Except PyError γ) :
    (Except.error e : Except PyError β) >>= f = .error e := rfl

lemma pure_eq_ok {β : Type} (a : β) : (pure a : Except PyError β) = .ok a := rfl

lemma map_ok {β γ : Type} (g : β → γ) (a : β) :
    (Except.ok a : Except PyError β).map g = .ok (g a) := rfl

lemma map_error {β γ : Type} (g : β → γ) (e : PyError) :
    (Except.error e : Except PyError β).map g = .error e := rfl

lemma npQR_fst_rows (An : Analytic α) (A : Mat α) : (npQR An A).1.rows = A.rows := rfl

lemma npQR_fst_cols (An : Analytic α) (A : Mat α) :
    (npQR An A).1.cols = min A.rows A.cols := rfl

lemma bandwidth_ok (X : Mat α) (rng : RNG α) (h : 1000 ≤ X.rows) :
    bandwidth X rng = .ok (fitSigma X rng, { rng with cNat := rng.cNat + 1000 }) := by
  simp [bandwidth, npChoice, h, ok_bind, pure_eq_ok, fitSigma, fitIdx]

lemma bandwidth_err (X : Mat α) (rng : RNG α) (h : X.rows < 1000) :
    bandwidth X rng = .error .valueError := by
  simp [bandwidth, npChoice, Nat.not_le.mpr h, error_bind]

lemma rffFit_ok (An : Analytic α) (c : Creator α) (X : Mat α) (rng : RNG α)
    (h : 1000 ≤ X.rows) :
    rffFit An c X rng =
      .ok ({ c with w := some (rawW An c X rng), b := some (fitB An c rng) },
           rngAfterRff c rng) := by
  rw [rffFit, bandwidth_ok X rng h]
  simp [ok_bind, pure_eq_ok, npNormalMat, npUniformVec, rawW, fitB, rngAfterRff,
    fitSigma, fitIdx]

lemma rffFit_err (An : Analytic α) (c : Creator α) (X : Mat α) (rng : RNG α)
    (h : X.rows < 1000) :
    rffFit An c X rng = .error .valueError := by
  rw [rffFit, bandwidth_err X rng h]
  rfl

lemma orthFit_ok (An : Analytic α) (c : Creator α) (X : Mat α) (rng : RNG α)
    (h : 1000 ≤ X.rows) (hmin : min c.n_features c.new_dim = c.new_dim) :
    orthFit An c X rng =
      .ok ({ c with w := some (orthW An c X rng), b := some (fitB An c rng) },
           rngAfterOrth c rng) := by
  rw [orthFit, bandwidth_ok X rng h]
  simp [ok_bind, pure_eq_ok, npNormalMat, npUniformVec, npChisqVec, npMatmul,
    npQR_fst_rows, npQR_fst_cols, diagMat, hmin, orthW, orthS, rawW, fitB,
    rngAfterOrth, fitSigma, fitIdx]

lemma orthFit_rank_err (An : Analytic α) (c : Creator α) (X : Mat α) (rng : RNG α)
    (h : 1000 ≤ X.rows) (hlt : c.n_features < c.new_dim) :
    orthFit An c X rng = .error .valueError := by
  have hne : min c.n_features c.new_dim ≠ c.new_dim := by omega
  rw [orthFit, bandwidth_ok X rng h]
  simp [ok_bind, pure_eq_ok, error_bind, npNormalMat, npChisqVec, npMatmul,
    npQR_fst_rows, npQR_fst_cols, diagMat, hne]

lemma orthFit_err (An : Analytic α) (c : Creator α) (X : Mat α) (rng : RNG α)
    (h : X.rows < 1000) :
    orthFit An c X rng = .error .valueError := by
  rw [orthFit, bandwidth_err X rng h]
  rfl

end RFF

namespace RFF

variable {α : Type} [LinearOrderedField α]

/-! Inversion and congruence facts for the fit functions. -/

lemma rffFit_ok_inv {An : Analytic α} {c c2 : Creator α} {X : Mat α}
    {rng r2 : RNG α} (hyp : rffFit An c X rng = .ok (c2, r2)) :
    1000 ≤ X.rows ∧
      c2 = { c with w := some (rawW An c X rng), b := some (fitB An c rng) } := by
  by_cases h : 1000 ≤ X.rows
  · rw [rffFit_ok An c X rng h] at hyp
    simp only [Except.ok.injEq, Prod.mk.injEq] at hyp
    exact ⟨h, hyp.1.symm⟩
  · rw [rffFit_err An c X rng (Nat.not_le.mp h)] at hyp
    exact absurd hyp (by simp)

lemma orthFit_ok_inv {An : Analytic α} {c c2 : Creator α} {X : Mat α}
    {rng r2 : RNG α} (hyp : orthFit An c X rng = .ok (c2, r2)) :
    1000 ≤ X.rows ∧ min c.n_features c.new_dim = c.new_dim ∧
      c2 = { c with w := some (orthW An c X rng), b := some (fitB An c rng) } := by
  by_cases h : 1000 ≤ X.rows
  · by_cases hlt : c.n_features < c.new_dim
    · rw [orthFit_rank_err An c X rng h hlt] at hyp
      exact absurd hyp (by simp)
    · have hmin : min c.n_features c.new_dim = c.new_dim :=
        Nat.min_eq_right (Nat.le_of_not_lt hlt)
      rw [orthFit_ok An c X rng h hmin] at hyp
      simp only [Except.ok.injEq, Prod.mk.injEq] at hyp
      exact ⟨h, hmin, hyp.1.symm⟩
  · rw [orthFit_err An c X rng (Nat.not_le.mp h)] at hyp
    exact absurd hyp (by simp)

lemma rawW_congr {An : Analytic α} {c1 c2 : Creator α} {X : Mat α} {rng : RNG α}
    (h1 : c1.n_features = c2.n_features) (h2 : c1.new_dim = c2.new_dim) :
    rawW An c1 X rng = rawW An c2 X rng := by
  simp only [rawW, h1, h2]

lemma fitB_congr {An : Analytic α} {c1 c2 : Creator α} {rng : RNG α}
    (h1 : c1.n_features = c2.n_features) :
    fitB An c1 rng = fitB An c2 rng := by
  simp only [fitB, h1]

lemma rffFit_congr {An : Analytic α} (c1 c2 : Creator α) {X : Mat α} {rng : RNG α}
    (h1 : c1.n_features = c2.n_features) (h2 : c1.new_dim = c2.new_dim)
    (h3 : c1.func = c2.func) :
    rffFit An c1 X rng = rffFit An c2 X rng := by
  by_cases h : 1000 ≤ X.rows
  · rw [rffFit_ok An c1 X rng h, rffFit_ok An c2 X rng h,
      rawW_congr h1 h2, fitB_congr h1]
    simp only [Except.ok.injEq, Prod.mk.injEq]
    constructor
    · exact Creator.ext h1 h2 rfl rfl h3
    · simp only [rngAfterRff, h1, h2]
  · rw [rffFit_err An c1 X rng (Nat.not_le.mp h), rffFit_err An c2 X rng (Nat.not_le.mp h)]

lemma orthW_congr {An : Analytic α} {c1 c2 : Creator α} {X : Mat α} {rng : RNG α}
    (h1 : c1.n_features = c2.n_features) (h2 : c1.new_dim = c2.new_dim) :
    orthW An c1 X rng = orthW An c2 X rng := by
  simp only [orthW, orthS, rawW_congr h1 h2, h1, h2]

lemma orthFit_congr {An : Analytic α} (c1 c2 : Creator α) {X : Mat α} {rng : RNG α}
    (h1 : c1.n_features = c2.n_features) (h2 : c1.new_dim = c2.new_dim)
    (h3 : c1.func = c2.func) :
    orthFit An c1 X rng = orthFit An c2 X rng := by
  by_cases h : 1000 ≤ X.rows
  · by_cases hlt : c1.n_features < c1.new_dim
    · rw [orthFit_rank_err An c1 X rng h hlt,
        orthFit_rank_err An c2 X rng h (by omega)]
    · have hmin1 : min c1.n_features c1.new_dim = c1.new_dim :=
        Nat.min_eq_right (Nat.le_of_not_lt hlt)
      have hmin2 : min c2.n_features c2.new_dim = c2.new_dim := by omega
      rw [orthFit_ok An c1 X rng h hmin1, orthFit_ok An c2 X rng h hmin2,
        orthW_congr h1 h2, fitB_congr h1]
      simp only [Except.ok.injEq, Prod.mk.injEq]
      constructor
      · exact Creator.ext h1 h2 rfl rfl h3
      · simp only [rngAfterOrth, h1, h2]
  · rw [orthFit_err An c1 X rng (Nat.not_le.mp h), orthFit_err An c2 X rng (Nat.not_le.mp h)]

lemma rawW_rows {An : Analytic α} {c : Creator α} {X : Mat α} {rng : RNG α} :
    (rawW An c X rng).rows = c.n_features := rfl

lemma rawW_cols {An : Analytic α} {c : Creator α} {X : Mat α} {rng : RNG α} :
    (rawW An c X rng).cols = c.new_dim := rfl

lemma orthW_rows {An : Analytic α} {c : Creator α} {X : Mat α} {rng : RNG α} :
    (orthW An c X rng).rows = c.n_features := rfl

lemma orthW_cols {An : Analytic α} {c : Creator α} {X : Mat α} {rng : RNG α} :
    (orthW An c X rng).cols = c.new_dim := rfl

lemma fitB_len {An : Analytic α} {c : Creator α} {rng : RNG α} :
    (fitB An c rng).len = c.n_features := rfl

/-- When both parameters are set and the dimensions line up, transform
computes exactly the cosine formula. -/
lemma rffTransform_fitted {An : Analytic α} {c : Creator α} {W : Mat α}
    {bv : Vec α} {X : Mat α} (hw : c.w = some W) (hb : c.b = some bv)
    (hWb : W.rows = bv.len) (hX : X.cols = W.cols) :
    rffTransform An c X = .ok (specRFFTransform An W bv X) := by
  simp only [rffTransform, hw, hb, npMatmul, transposeM, hX, if_true,
    npBroadcastAdd, mapMat, specRFFTransform, ok_bind, pure_eq_ok, hWb]

end RFF

namespace RFF

variable {α : Type} [LinearOrderedField α]

omit [LinearOrderedField α] in
lemma selectRows_rows (X : Mat α) (idx : List ℕ) :
    (selectRows X idx).rows = idx.length := rfl

lemma fitIdx_X1000_length : (fitIdx rngQ X1000.rows).length = 1000 := by
  unfold fitIdx
  rw [selectList_length, List.length_range]
  norm_num [X1000]

lemma fitSigma_X1000_zero : fitSigma X1000 rngQ = 0 := by
  have hzero : ∀ x ∈ sqPdist (selectRows X1000 (fitIdx rngQ X1000.rows)),
      x = (0 : ℚ) := by
    intro x hx
    obtain ⟨i, j, rfl⟩ := mem_sqPdist _ x hx
    apply List.sum_eq_zero
    intro y hy
    simp only [List.mem_map] at hy
    obtain ⟨k, _, rfl⟩ := hy
    simp [selectRows, X1000]
  have hne : sqPdist (selectRows X1000 (fitIdx rngQ X1000.rows)) ≠ [] :=
    sqPdist_ne_nil _ (by rw [selectRows_rows, fitIdx_X1000_length]; omega)
  exact npMedian_all_eq _ 0 hne hzero

/-- C1: for every creator fitted by RandomFeatureCreator.fit or
OrthogonalRandomFeatureCreator.fit, and every input X whose column count
equals the fitted projection width new_dim, transform(X) returns exactly
the elementwise cosine of X·Wᵀ + b with the phase vector b broadcast
across rows, with output shape [n_samples × n_features]. -/
theorem C1_transform_matches_spec (An : Analytic α) (c0 c : Creator α)
    (X0 X : Mat α) (rng r2 : RNG α)
    (hfit : rffFit An c0 X0 rng = .ok (c, r2) ∨ orthFit An c0 X0 rng = .ok (c, r2))
    (hX : X.cols = c0.new_dim) :
    ∃ W bv, c.w = some W ∧ c.b = some bv ∧
      rffTransform An c X = .ok (specRFFTransform An W bv X) ∧
      (specRFFTransform An W bv X).rows = X.rows ∧
      (specRFFTransform An W bv X).cols = c0.n_features := by
  rcases hfit with hf | hf
  · obtain ⟨h1000, hc⟩ := rffFit_ok_inv hf
    subst hc
    exact ⟨rawW An c0 X0 rng, fitB An c0 rng, rfl, rfl,
      rffTransform_fitted rfl rfl rfl hX, rfl, rfl⟩
  · obtain ⟨h1000, hmin, hc⟩ := orthFit_ok_inv hf
    subst hc
    exact ⟨orthW An c0 X0 rng, fitB An c0 rng, rfl, rfl,
      rffTransform_fitted rfl rfl rfl hX, rfl, rfl⟩

/-- Witness for C1 at a concrete fitted map and input. -/
theorem C1_witness :
    (rffFit AnQ cr21 X1000 rngQ = .ok (fitC, fitR) ∨
      orthFit AnQ cr21 X1000 rngQ = .ok (fitC, fitR)) ∧
    Xs1.cols = cr21.new_dim ∧
    (∃ W bv, fitC.w = some W ∧ fitC.b = some bv ∧
      rffTransform AnQ fitC Xs1 = .ok (specRFFTransform AnQ W bv Xs1) ∧
      (specRFFTransform AnQ W bv Xs1).rows = Xs1.rows ∧
      (specRFFTransform AnQ W bv Xs1).cols = cr21.n_features) :=
  ⟨Or.inl rfl, rfl,
    C1_transform_matches_spec AnQ cr21 fitC X1000 Xs1 rngQ fitR (Or.inl rfl) rfl⟩

/-- C2 (amended): for every X with at least 1000 rows, the bandwidth is
the median of the pairwise squared Euclidean distances over the drawn
1000-row subsample, which is a list of 1000 distinct valid row indices,
and the bandwidth is nonnegative (the claimed strict positivity fails on
data with repeated rows, see the counterexample). -/
theorem C2_bandwidth_median (X : Mat α) (rng : RNG α) (h : 1000 ≤ X.rows) :
    ∃ idx r2, idx = fitIdx rng X.rows ∧
      bandwidth X rng = .ok (npMedian (sqPdist (selectRows X idx)), r2) ∧
      idx.length = 1000 ∧ idx.Nodup ∧ (∀ i ∈ idx, i < X.rows) ∧
      0 ≤ npMedian (sqPdist (selectRows X idx)) := by
  refine ⟨fitIdx rng X.rows, { rng with cNat := rng.cNat + 1000 }, rfl,
    bandwidth_ok X rng h, ?_, ?_, ?_, ?_⟩
  · unfold fitIdx
    rw [selectList_length, List.length_range]
    omega
  · exact selectList_nodup _ _ _ _ (List.nodup_range _)
  · intro i hi
    exact List.mem_range.mp (selectList_subset _ _ _ _ _ hi)
  · apply npMedian_nonneg
    intro x hx
    obtain ⟨i, j, rfl⟩ := mem_sqPdist _ x hx
    exact rowSqDist_nonneg _ i j

/-- Witness for C2 on a concrete 1000-row dataset. -/
theorem C2_witness :
    1000 ≤ X1000.rows ∧
    (∃ idx r2, idx = fitIdx rngQ X1000.rows ∧
      bandwidth X1000 rngQ = .ok (npMedian (sqPdist (selectRows X1000 idx)), r2) ∧
      idx.length = 1000 ∧ idx.Nodup ∧ (∀ i ∈ idx, i < X1000.rows) ∧
      0 ≤ npMedian (sqPdist (selectRows X1000 idx))) :=
  ⟨le_refl 1000, C2_bandwidth_median X1000 rngQ (le_refl 1000)⟩

/-- Counterexample to C2 as stated: on a 1000-row dataset whose rows are
all identical, the computed bandwidth is exactly 0, not strictly
positive. -/
theorem C2_counterexample :
    bandwidth X1000 rngQ = .ok ((0 : ℚ), { rngQ with cNat := rngQ.cNat + 1000 }) ∧
    ¬ (0 : ℚ) < (0 : ℚ) := by
  constructor
  · rw [bandwidth_ok X1000 rngQ (le_refl 1000), fitSigma_X1000_zero]
  · exact lt_irrefl 0

/-- C3 (amended): fit is a deterministic function of the data and of the
global generator state: its visible output ignores stream positions that
were already consumed (everything below the cursors), so two fits from
identical states agree; but there is no caller-supplied seed, and fits
from states at different cursor positions differ (see counterexample). -/
theorem C3_global_state_determinism (An : Analytic α) (c : Creator α) (X : Mat α)
    (s t : RNG α) (hcn : s.cNat = t.cNat) (hcg : s.cNormal = t.cNormal)
    (hcu : s.cUniform = t.cUniform) (hcx : s.cChisq = t.cChisq)
    (hn : ∀ m, s.cNat ≤ m → s.nats m = t.nats m)
    (hg : ∀ m, s.cNormal ≤ m → s.normals m = t.normals m)
    (hu : ∀ m, s.cUniform ≤ m → s.uniforms m = t.uniforms m)
    (hx : ∀ m, s.cChisq ≤ m → s.chisqs m = t.chisqs m) :
    (bandwidth X s).map Prod.fst = (bandwidth X t).map Prod.fst ∧
    (rffFit An c X s).map Prod.fst = (rffFit An c X t).map Prod.fst ∧
    (orthFit An c X s).map Prod.fst = (orthFit An c X t).map Prod.fst := by
  have hidx : fitIdx s X.rows = fitIdx t X.rows := by
    unfold fitIdx
    rw [← hcn]
    exact selectList_congr s.nats t.nats 1000 s.cNat _ hn
  have hsig : fitSigma X s = fitSigma X t := by
    unfold fitSigma
    rw [hidx]
  have hraw : rawW An c X s = rawW An c X t := by
    have he : (fun i j => An.sqrt (1 / (2 * fitSigma X s)) *
        s.normals (s.cNormal + (i * c.new_dim + j))) =
        (fun i j => An.sqrt (1 / (2 * fitSigma X t)) *
        t.normals (t.cNormal + (i * c.new_dim + j))) := by
      funext i j
      rw [hsig, hg (s.cNormal + (i * c.new_dim + j)) (Nat.le_add_right _ _), hcg]
    unfold rawW
    exact congrArg (Mat.mk c.n_features c.new_dim) he
  have hb : fitB An c s = fitB An c t := by
    have he : (fun i => -An.pi + (An.pi - -An.pi) * s.uniforms (s.cUniform + i)) =
        (fun i => -An.pi + (An.pi - -An.pi) * t.uniforms (t.cUniform + i)) := by
      funext i
      rw [hu (s.cUniform + i) (Nat.le_add_right _ _), hcu]
    unfold fitB
    exact congrArg (Vec.mk c.n_features) he
  have hS : orthS An c s = orthS An c t := by
    have he : (fun i => An.sqrt (s.chisqs (s.cChisq + i))) =
        (fun i => An.sqrt (t.chisqs (t.cChisq + i))) := by
      funext i
      rw [hx (s.cChisq + i) (Nat.le_add_right _ _), hcx]
    unfold orthS
    rw [he]
  have hoW : orthW An c X s = orthW An c X t := by
    unfold orthW
    rw [hraw, hS]
  refine ⟨?_, ?_, ?_⟩
  · by_cases h : 1000 ≤ X.rows
    · rw [bandwidth_ok X s h, bandwidth_ok X t h, map_ok, map_ok, hsig]
    · rw [bandwidth_err X s (Nat.not_le.mp h), bandwidth_err X t (Nat.not_le.mp h)]
  · by_cases h : 1000 ≤ X.rows
    · rw [rffFit_ok An c X s h, rffFit_ok An c X t h, map_ok, map_ok, hraw, hb]
    · rw [rffFit_err An c X s (Nat.not_le.mp h), rffFit_err An c X t (Nat.not_le.mp h)]
  · by_cases h : 1000 ≤ X.rows
    · by_cases hlt : c.n_features < c.new_dim
      · rw [orthFit_rank_err An c X s h hlt, orthFit_rank_err An c X t h hlt]
      · have hmin : min c.n_features c.new_dim = c.new_dim :=
          Nat.min_eq_right (Nat.le_of_not_lt hlt)
        rw [orthFit_ok An c X s h hmin, orthFit_ok An c X t h hmin,
          map_ok, map_ok, hoW, hb]
    · rw [orthFit_err An c X s (Nat.not_le.mp h), orthFit_err An c X t (Nat.not_le.mp h)]

/-- Witness for C3 on two concrete states that differ only in
already-consumed stream positions. -/
theorem C3_witness :
    (bandwidth X1000 rngW1).map Prod.fst = (bandwidth X1000 rngW2).map Prod.fst ∧
    (rffFit AnQ cr21 X1000 rngW1).map Prod.fst =
      (rffFit AnQ cr21 X1000 rngW2).map Prod.fst ∧
    (orthFit AnQ cr21 X1000 rngW1).map Prod.fst =
      (orthFit AnQ cr21 X1000 rngW2).map Prod.fst :=
  C3_global_state_determinism AnQ cr21 X1000 rngW1 rngW2 rfl rfl rfl rfl
    (fun m hm => by simp [rngW1, rngW2, Nat.one_le_iff_ne_zero.mp hm])
    (fun m hm => by simp [rngW1, rngW2, Nat.one_le_iff_ne_zero.mp hm])
    (fun m hm => by simp [rngW1, rngW2, Nat.one_le_iff_ne_zero.mp hm])
    (fun m hm => by simp [rngW1, rngW2, Nat.one_le_iff_ne_zero.mp hm])

/-- Counterexample to C3 as stated: identical data, identical streams,
but one prior global uniform draw (uniform cursor advanced by one) makes
the fitted phase vector differ, so fit is not reproducible from a
caller-supplied seed alone. -/
theorem C3_counterexample :
    extractB0 (rffFit AnQ cr21 X1000 rngQ) ≠
      extractB0 (rffFit AnQ cr21 X1000 rngQ1) := by
  have h1 : extractB0 (rffFit AnQ cr21 X1000 rngQ)
      = some (-AnQ.pi + (AnQ.pi - -AnQ.pi) * rngQ.uniforms 0) := rfl
  have h2 : extractB0 (rffFit AnQ cr21 X1000 rngQ1)
      = some (-AnQ.pi + (AnQ.pi - -AnQ.pi) * rngQ1.uniforms 1) := rfl
  rw [h1, h2]
  simp only [AnQ, rngQ, rngQ1, Option.some.injEq]
  norm_num

end RFF

namespace RFF

variable {α : Type} [LinearOrderedField α]

/-- C4 (amended): fitting either Fourier variant on a dataset with fewer
than 1000 rows fails, but with the generic ValueError raised by
np.random.choice, not with a dedicated InsufficientDataError (no such
error kind exists in the code). -/
theorem C4_small_data_value_error (An : Analytic α) (c : Creator α) (X : Mat α)
    (rng : RNG α) (h : X.rows < 1000) :
    rffFit An c X rng = .error .valueError ∧
    orthFit An c X rng = .error .valueError ∧
    rffFit An c X rng ≠ .error .insufficientDataError ∧
    orthFit An c X rng ≠ .error .insufficientDataError := by
  refine ⟨rffFit_err An c X rng h, orthFit_err An c X rng h, ?_, ?_⟩
  · rw [rffFit_err An c X rng h]
    intro hh
    exact PyError.noConfusion (Except.error.inj hh)
  · rw [orthFit_err An c X rng h]
    intro hh
    exact PyError.noConfusion (Except.error.inj hh)

/-- Witness for C4 on a concrete 500-row dataset. -/
theorem C4_witness :
    X500.rows < 1000 ∧
    (rffFit AnQ cr21 X500 rngQ = .error .valueError ∧
     orthFit AnQ cr21 X500 rngQ = .error .valueError ∧
     rffFit AnQ cr21 X500 rngQ ≠ .error .insufficientDataError ∧
     orthFit AnQ cr21 X500 rngQ ≠ .error .insufficientDataError) :=
  ⟨by norm_num [X500], C4_small_data_value_error AnQ cr21 X500 rngQ (by norm_num [X500])⟩

/-- Counterexample to C4 as stated: on a concrete 500-row dataset the fit
raises the plain ValueError of the sampling routine, not an
InsufficientDataError. -/
theorem C4_counterexample :
    rffFit AnQ cr21 X500 rngQ = .error .valueError ∧
    rffFit AnQ cr21 X500 rngQ ≠ .error .insufficientDataError := by
  have h1 : rffFit AnQ cr21 X500 rngQ = .error .valueError := rfl
  refine ⟨h1, ?_⟩
  rw [h1]
  intro hh
  exact PyError.noConfusion (Except.error.inj hh)

/-- C5 (amended): before fit, the placeholder (Identity) transform
succeeds and returns X unchanged, while the Fourier transforms and the
pipeline predict and predict_proba fail with AttributeError (None has no
attribute); none of them raises NotFittedError. -/
theorem C5_unfitted_behaviour (An : Analytic α) (c : Creator α) (X : Mat α)
    (p : PState α) (pca : ℕ → Mat α → Mat α → Mat α)
    (clsPredict : Mat α × Vec α → Mat α → Vec α)
    (clsProba : Mat α × Vec α → Mat α → Mat α)
    (hw : c.w = none) (hp : p.pipeline = none) :
    dispatchTransform .placeholder An c X = .ok X ∧
    dispatchTransform .randomFourier An c X = .error .attributeError ∧
    dispatchTransform .orthogonalRandomFourier An c X = .error .attributeError ∧
    pipelinePredict An pca clsPredict p X = .error .attributeError ∧
    pipelinePredictProba An pca clsProba p X = .error .attributeError := by
  refine ⟨rfl, ?_, ?_, ?_, ?_⟩
  · show rffTransform An c X = _
    rw [rffTransform, hw]
  · show rffTransform An c X = _
    rw [rffTransform, hw]
  · rw [pipelinePredict, hp]
  · rw [pipelinePredictProba, hp]

/-- Witness for C5 on a concrete unfitted creator and pipeline. -/
theorem C5_witness :
    cr21.w = none ∧ pipeP0.pipeline = none ∧
    (dispatchTransform .placeholder AnQ cr21 Xs1 = .ok Xs1 ∧
     dispatchTransform .randomFourier AnQ cr21 Xs1 = .error .attributeError ∧
     dispatchTransform .orthogonalRandomFourier AnQ cr21 Xs1 = .error .attributeError ∧
     pipelinePredict AnQ dummyPCA dummyPredict pipeP0 Xs1 = .error .attributeError ∧
     pipelinePredictProba AnQ dummyPCA dummyProba pipeP0 Xs1 = .error .attributeError) :=
  ⟨rfl, rfl,
    C5_unfitted_behaviour AnQ cr21 Xs1 pipeP0 dummyPCA dummyPredict dummyProba rfl rfl⟩

/-- Counterexample to C5 as stated: the unfitted Identity variant does
not fail at all, let alone with NotFittedError: it returns the input. -/
theorem C5_counterexample :
    dispatchTransform .placeholder AnQ cr21 Xs1 = .ok Xs1 ∧
    dispatchTransform .placeholder AnQ cr21 Xs1 ≠ .error .notFittedError := by
  refine ⟨rfl, ?_⟩
  intro hh
  exact Except.noConfusion hh

/-- C6 (amended): transforming through a fitted Fourier map with an input
whose column count differs from the fitted new_dim fails, but with the
generic ValueError of the numpy matrix product, not with a dedicated
DimensionMismatchError. -/
theorem C6_dim_mismatch_value_error (An : Analytic α) (c0 c : Creator α)
    (X0 X : Mat α) (rng r2 : RNG α)
    (hfit : rffFit An c0 X0 rng = .ok (c, r2) ∨ orthFit An c0 X0 rng = .ok (c, r2))
    (hX : X.cols ≠ c0.new_dim) :
    rffTransform An c X = .error .valueError ∧
    rffTransform An c X ≠ .error .dimensionMismatchError := by
  have herr : rffTransform An c X = .error .valueError := by
    rcases hfit with hf | hf
    · obtain ⟨h1000, hc⟩ := rffFit_ok_inv hf
      subst hc
      show (match some (rawW An c0 X0 rng) with
        | none => (.error .attributeError : Except PyError (Mat α))
        | some w => _) = _
      simp only [rffTransform, npMatmul, transposeM, rawW_cols]
      rw [if_neg (by simpa [transposeM, rawW_cols] using hX)]
      rfl
    · obtain ⟨h1000, hmin, hc⟩ := orthFit_ok_inv hf
      subst hc
      simp only [rffTransform, npMatmul, transposeM, orthW_cols]
      rw [if_neg (by simpa [transposeM, orthW_cols] using hX)]
      rfl
  refine ⟨herr, ?_⟩
  rw [herr]
  intro hh
  exact PyError.noConfusion (Except.error.inj hh)

/-- Witness for C6 at a concrete fitted map and a five-column input. -/
theorem C6_witness :
    (rffFit AnQ cr21 X1000 rngQ = .ok (fitC, fitR) ∨
      orthFit AnQ cr21 X1000 rngQ = .ok (fitC, fitR)) ∧
    Xs5.cols ≠ cr21.new_dim ∧
    (rffTransform AnQ fitC Xs5 = .error .valueError ∧
     rffTransform AnQ fitC Xs5 ≠ .error .dimensionMismatchError) :=
  ⟨Or.inl rfl, by norm_num [Xs5, cr21, mkCreator],
    C6_dim_mismatch_value_error AnQ cr21 fitC X1000 Xs5 rngQ fitR (Or.inl rfl)
      (by norm_num [Xs5, cr21, mkCreator])⟩

/-- Counterexample to C6 as stated: at a concrete fitted map, transform
on a five-column input raises ValueError, not DimensionMismatchError. -/
theorem C6_counterexample :
    rffTransform AnQ fitC Xs5 = .error .valueError ∧
    rffTransform AnQ fitC Xs5 ≠ .error .dimensionMismatchError := by
  have h1 : rffTransform AnQ fitC Xs5 = .error .valueError := rfl
  refine ⟨h1, ?_⟩
  rw [h1]
  intro hh
  exact PyError.noConfusion (Except.error.inj hh)

/-- C7 (amended): when n_features < new_dim the orthogonal fit fails, but
with the generic ValueError of the shape mismatch in the product Q @ S
(the reduced QR factor has only n_features columns), not with a dedicated
OrthogonalizationRankError. -/
theorem C7_rank_value_error (An : Analytic α) (c : Creator α) (X : Mat α)
    (rng : RNG α) (h1000 : 1000 ≤ X.rows) (hlt : c.n_features < c.new_dim) :
    orthFit An c X rng = .error .valueError ∧
    orthFit An c X rng ≠ .error .orthogonalizationRankError := by
  refine ⟨orthFit_rank_err An c X rng h1000 hlt, ?_⟩
  rw [orthFit_rank_err An c X rng h1000 hlt]
  intro hh
  exact PyError.noConfusion (Except.error.inj hh)

/-- Witness for C7 on a concrete configuration with 1 feature and
new_dim 2. -/
theorem C7_witness :
    1000 ≤ X1000.rows ∧ cr12.n_features < cr12.new_dim ∧
    (orthFit AnQ cr12 X1000 rngQ = .error .valueError ∧
     orthFit AnQ cr12 X1000 rngQ ≠ .error .orthogonalizationRankError) :=
  ⟨le_refl 1000, by norm_num [cr12, mkCreator],
    C7_rank_value_error AnQ cr12 X1000 rngQ (le_refl 1000)
      (by norm_num [cr12, mkCreator])⟩

/-- Counterexample to C7 as stated: the concrete failing fit raises
ValueError, not OrthogonalizationRankError. -/
theorem C7_counterexample :
    orthFit AnQ cr12 X1000 rngQ = .error .valueError ∧
    orthFit AnQ cr12 X1000 rngQ ≠ .error .orthogonalizationRankError := by
  have h1 : orthFit AnQ cr12 X1000 rngQ = .error .valueError := rfl
  refine ⟨h1, ?_⟩
  rw [h1]
  intro hh
  exact PyError.noConfusion (Except.error.inj hh)

/-- C9: the Identity (placeholder) variant does nothing: fit returns the
instance unchanged and transform returns its input exactly, with no
error condition for any input. -/
theorem C9_identity_noop (An : Analytic α) (c : Creator α) (Xf X : Mat α)
    (rng : RNG α) :
    dispatchFit .placeholder An c Xf rng = .ok (c, rng) ∧
    placeholderFit c Xf = c ∧
    dispatchTransform .placeholder An c X = .ok X ∧
    placeholderTransform c X = X :=
  ⟨rfl, rfl, rfl, rfl⟩

/-- C10: the stored func nonlinearity never influences transform: two
creators identical except for func produce identical outputs, both when
transforming directly and when fitting (with the same randomness) and
then transforming. -/
theorem C10_func_inert (k : FCKind) (An : Analytic α) (c : Creator α)
    (f g : α → α) (Xf X : Mat α) (rng : RNG α) :
    dispatchTransform k An { c with func := f } X
      = dispatchTransform k An { c with func := g } X ∧
    fitThenTransform k An { c with func := f } Xf X rng
      = fitThenTransform k An { c with func := g } Xf X rng := by
  constructor
  · cases k <;> rfl
  · cases k with
    | placeholder => rfl
    | randomFourier =>
      by_cases h : 1000 ≤ Xf.rows
      · show ((rffFit An { c with func := f } Xf rng) >>= fun p =>
          dispatchTransform .randomFourier An p.1 X) = ((rffFit An { c with func := g } Xf rng) >>= fun p =>
          dispatchTransform .randomFourier An p.1 X)
        rw [rffFit_ok An { c with func := f } Xf rng h,
          rffFit_ok An { c with func := g } Xf rng h]
        rfl
      · show ((rffFit An { c with func := f } Xf rng) >>= fun p =>
          dispatchTransform .randomFourier An p.1 X) = ((rffFit An { c with func := g } Xf rng) >>= fun p =>
          dispatchTransform .randomFourier An p.1 X)
        rw [rffFit_err An { c with func := f } Xf rng (Nat.not_le.mp h),
          rffFit_err An { c with func := g } Xf rng (Nat.not_le.mp h)]
    | orthogonalRandomFourier =>
      by_cases h : 1000 ≤ Xf.rows
      · by_cases hlt : c.n_features < c.new_dim
        · show ((orthFit An { c with func := f } Xf rng) >>= fun p =>
            dispatchTransform .orthogonalRandomFourier An p.1 X) = ((orthFit An { c with func := g } Xf rng) >>= fun p =>
            dispatchTransform .orthogonalRandomFourier An p.1 X)
          rw [orthFit_rank_err An { c with func := f } Xf rng h hlt,
            orthFit_rank_err An { c with func := g } Xf rng h hlt]
        · have hmin : min c.n_features c.new_dim = c.new_dim :=
            Nat.min_eq_right (Nat.le_of_not_lt hlt)
          show ((orthFit An { c with func := f } Xf rng) >>= fun p =>
            dispatchTransform .orthogonalRandomFourier An p.1 X) = ((orthFit An { c with func := g } Xf rng) >>= fun p =>
            dispatchTransform .orthogonalRandomFourier An p.1 X)
          rw [orthFit_ok An { c with func := f } Xf rng h hmin,
            orthFit_ok An { c with func := g } Xf rng h hmin]
          rfl
      · show ((orthFit An { c with func := f } Xf rng) >>= fun p =>
          dispatchTransform .orthogonalRandomFourier An p.1 X) = ((orthFit An { c with func := g } Xf rng) >>= fun p =>
          dispatchTransform .orthogonalRandomFourier An p.1 X)
        rw [orthFit_err An { c with func := f } Xf rng (Nat.not_le.mp h),
          orthFit_err An { c with func := g } Xf rng (Nat.not_le.mp h)]

end RFF

namespace RFF

variable {α : Type} [LinearOrderedField α]

/-- Refitting a feature creator ignores its previously stored w and b:
fitting a creator that came out of an earlier fit behaves like fitting
the original creator (the placeholder returns its input, the Fourier
variants overwrite w and b from scratch). -/
lemma dispatchFit_after (k : FCKind) (An : Analytic α) (c c2 : Creator α)
    (X1r X2r : Mat α) (r1 r1a s : RNG α)
    (h : dispatchFit k An c X1r r1 = .ok (c2, r1a)) :
    dispatchFit k An c2 X2r s = dispatchFit k An c X2r s := by
  cases k with
  | placeholder =>
    simp only [dispatchFit, placeholderFit, Except.ok.injEq, Prod.mk.injEq] at h
    rw [← h.1]
  | randomFourier =>
    obtain ⟨h1000, hc⟩ := rffFit_ok_inv h
    subst hc
    exact rffFit_congr _ c rfl rfl rfl
  | orthogonalRandomFourier =>
    obtain ⟨h1000, hmin, hc⟩ := orthFit_ok_inv h
    subst hc
    exact orthFit_congr _ c rfl rfl rfl

/-- C8 (amended): refitting a pipeline overwrites the feature-creator
parameters, classifier state and stored pipeline, but the effective
target dimensionality is clamped cumulatively (min with every previously
seen input width, because fit reassigns self.new_dim); the refit state
equals a fresh fit state (given the same generator state for the
compared fits) exactly when the cumulative clamp agrees with the fresh
clamp, e.g. when PCA is disabled or X1 is at least as wide as X2. -/
theorem C8_refit_vs_fresh (An : Analytic α) (pca : ℕ → Mat α → Mat α → Mat α)
    (p0 p1 : PState α) (X1 X2 : Mat α) (y1 y2 : Vec α) (r1 r1b s : RNG α)
    (hfit1 : pipelineFit An pca p0 X1 y1 r1 = .ok (p1, r1b))
    (hnd : (if p0.use_PCA then min X2.cols (min X1.cols p0.new_dim) else p0.new_dim)
         = (if p0.use_PCA then min X2.cols p0.new_dim else p0.new_dim)) :
    pipelineFit An pca p1 X2 y2 s = pipelineFit An pca p0 X2 y2 s := by
  simp only [pipelineFit] at hfit1
  cases hfc : dispatchFit p0.fkind An p0.feature_creator
      (if p0.use_PCA = true then
        pca (if p0.use_PCA = true then X1.cols ⊓ p0.new_dim else p0.new_dim) X1 X1
      else X1) r1 with
  | error e =>
    rw [hfc] at hfit1
    exact absurd hfit1 (by simp [error_bind])
  | ok pr =>
    rw [hfc, ok_bind] at hfit1
    cases hZ : dispatchTransform p0.fkind An pr.1
        (if p0.use_PCA = true then
          pca (if p0.use_PCA = true then X1.cols ⊓ p0.new_dim else p0.new_dim) X1 X1
        else X1) with
    | error e =>
      rw [hZ] at hfit1
      exact absurd hfit1 (by simp [error_bind])
    | ok Z =>
      rw [hZ, ok_bind] at hfit1
      simp only [pure_eq_ok, Except.ok.injEq, Prod.mk.injEq] at hfit1
      obtain ⟨hp1, hr⟩ := hfit1
      subst hp1
      have hnd2 :
          (if p0.use_PCA = true then
            X2.cols ⊓ (if p0.use_PCA = true then X1.cols ⊓ p0.new_dim else p0.new_dim)
          else (if p0.use_PCA = true then X1.cols ⊓ p0.new_dim else p0.new_dim))
          = (if p0.use_PCA = true then X2.cols ⊓ p0.new_dim else p0.new_dim) := by
        cases hu : p0.use_PCA with
        | false => simp [hu]
        | true => simpa [hu] using hnd
      have hdf : dispatchFit p0.fkind An pr.1
          (if p0.use_PCA = true then pca (if p0.use_PCA = true then X2.cols ⊓ p0.new_dim else p0.new_dim) X2 X2 else X2) s
          = dispatchFit p0.fkind An p0.feature_creator
          (if p0.use_PCA = true then pca (if p0.use_PCA = true then X2.cols ⊓ p0.new_dim else p0.new_dim) X2 X2 else X2) s :=
        dispatchFit_after p0.fkind An p0.feature_creator pr.1 _ _ r1 pr.2 s hfc
      simp only [pipelineFit]
      simp only [hnd2, hdf]


/-- Witness for C8 on a concrete pipeline where the cumulative clamp
agrees with the fresh clamp (first fit on the wider dataset). -/
theorem C8_witness :
    pipelineFit AnQ dummyPCA pipeP0 Xp2 yp rngQ = .ok (pipeP2, pipeR2) ∧
    ((if pipeP0.use_PCA then min Xp1.cols (min Xp2.cols pipeP0.new_dim)
        else pipeP0.new_dim)
      = (if pipeP0.use_PCA then min Xp1.cols pipeP0.new_dim else pipeP0.new_dim)) ∧
    pipelineFit AnQ dummyPCA pipeP2 Xp1 yp rngQ =
      pipelineFit AnQ dummyPCA pipeP0 Xp1 yp rngQ :=
  ⟨rfl, by decide,
    C8_refit_vs_fresh AnQ dummyPCA pipeP0 pipeP2 Xp2 Xp1 yp yp rngQ pipeR2 rngQ
      rfl (by decide)⟩

/-- Counterexample to C8 as stated: fitting on a one-column dataset and
then refitting on a two-column dataset leaves the effective target
dimensionality at 1, while a fresh fit on the two-column dataset gives
2, so the refit state is not that of a fresh fit. -/
theorem C8_counterexample :
    extractNewDim (pipelineFit AnQ dummyPCA pipeP1 Xp2 yp rngQ) = some 1 ∧
    extractNewDim (pipelineFit AnQ dummyPCA pipeP0 Xp2 yp rngQ) = some 2 ∧
    extractNewDim (pipelineFit AnQ dummyPCA pipeP1 Xp2 yp rngQ) ≠
      extractNewDim (pipelineFit AnQ dummyPCA pipeP0 Xp2 yp rngQ) :=
  ⟨rfl, rfl, by decide⟩

end RFF
